import Mathlib

/-!
Verification of the sparse-matrix repository (src/sparse_matrix.py).

The Python class `Sparse_Matrix` keeps three fields: `rows`, `cols` (Python
ints) and `matrix`, a dict mapping `(row, col)` index pairs to numeric
values.  Python dicts preserve insertion order, update a key in place, and
keep the remaining order on `pop`; the dict is therefore embedded as an
association list of `((row, col), value)` pairs with unique keys, and the
dict primitives below (`dictGet?`, `dictSet`, `dictPop`) implement exactly
those ordering rules.

Numeric values: the code manipulates Python ints and floats.  Floats are
embedded as exact rationals; no claim exercises rounding, and every float
that actually reaches arithmetic in the claims is integral.  The crucial
point preserved by the embedding is the dynamic type test `type(v) is int`:
note that the Python sources spell several of these tests
`type(v) is (int or float)`, an expression that evaluates to `int`, so the
checks accept ints only.  `PyNum.isInt` models that test faithfully.

Errors: Python raises `AssertionError` or `TypeError` with a message; each
raise site gets one constructor of `Err`.  The checks that a subscript is a
2-tuple of ints are vacuously true here because indices are typed
`Int × Int`; those raise sites therefore have no constructor.

Mutating methods (`__setitem__`, `__delitem__`, `__call__`) return the
post-call object state paired with `Option Err`: Python leaves the mutated
`self` behind when an exception escapes, and `__call__` can indeed raise
after having already deleted entries, so the partially mutated state must
be observable.  Pure producers return `Except Err Sparse_Matrix`.
-/

/-- A Python numeric value: an int, or a float embedded as an exact rational. -/
inductive PyNum where
  | int (n : Int)
  | float (q : Rat)
deriving DecidableEq, Repr

/-- Numeric magnitude of a value, as used by Python comparisons such as `==` and `<`. -/
def PyNum.toRat : PyNum → Rat
  | .int n => (n : Rat)
  | .float q => q

/-- The dynamic type test `type(v) is int`.  The source writes several value
checks as `type(v) is (int or float)`, which evaluates to `type(v) is int`,
so this single test models them all. -/
def PyNum.isInt : PyNum → Bool
  | .int _ => true
  | .float _ => false

/-- Python `v == 0` on a numeric value. -/
def PyNum.eqZero (a : PyNum) : Bool := decide (a.toRat = 0)

/-- Python `a == b` on numeric values. -/
def PyNum.eqNum (a b : PyNum) : Bool := decide (a.toRat = b.toRat)

/-- Python `a <= b` on numeric values, the order used by `sorted`. -/
def PyNum.le (a b : PyNum) : Bool := decide (a.toRat ≤ b.toRat)

/-- Python `a + b`: int + int stays int, anything involving a float is a float. -/
def PyNum.add : PyNum → PyNum → PyNum
  | .int a, .int b => .int (a + b)
  | a, b => .float (a.toRat + b.toRat)

/-- Python `a * b`: int * int stays int, anything involving a float is a float. -/
def PyNum.mul : PyNum → PyNum → PyNum
  | .int a, .int b => .int (a * b)
  | a, b => .float (a.toRat * b.toRat)

/-- Python unary minus on a numeric value. -/
def PyNum.neg : PyNum → PyNum
  | .int n => .int (-n)
  | .float q => .float (-q)

/-- One raise site of the Python class per constructor. -/
inductive Err where
  | initBadRows
  | initBadCols
  | initOutOfBounds
  | initDupKey
  | initBadValue
  | getBadRow
  | getBadCol
  | setBadRow
  | setBadCol
  | setBadValue
  | delBadRow
  | delBadCol
  | callBadRows
  | callBadCols
  | addSizeMismatch
  | addBadOperand
  | subSizeMismatch
  | subBadOperand
  | mulSizeMismatch
  | mulBadOperand
  | powBadExponent
  | powNotSquare
deriving DecidableEq, Repr

/-- One stored entry of the backing dict: a key pair and its value.  The seed
3-tuples `(r, c, v)` passed to the constructor are modelled with the same
shape, `((r, c), v)`. -/
abbrev Entry := (Int × Int) × PyNum

/-- The backing dict `self.matrix`, in insertion order, keys unique. -/
abbrev Dict := List Entry

/-- Python `d.get(k)` / `k in d`: first (unique) binding of the key, if any. -/
def dictGet? : Dict → (Int × Int) → Option PyNum
  | [], _ => none
  | p :: rest, k => if p.1 = k then some p.2 else dictGet? rest k

/-- Python `d[k] = v`: update in place when the key is present, else append. -/
def dictSet : Dict → (Int × Int) → PyNum → Dict
  | [], k, v => [(k, v)]
  | p :: rest, k, v => if p.1 = k then (k, v) :: rest else p :: dictSet rest k v

/-- Python `d.pop(k)` on a present key (identity when absent): drop the binding,
keeping the order of the rest. -/
def dictPop : Dict → (Int × Int) → Dict
  | [], _ => []
  | p :: rest, k => if p.1 = k then rest else p :: dictPop rest k

/-- Stored value at an index, defaulting to int 0 — the lookup performed by
`__getitem__`, `row`, `col` and the display paths once bounds checks passed. -/
def dictGet0 (d : Dict) (k : Int × Int) : PyNum := (dictGet? d k).getD (.int 0)

/-- Python `range(n)` as a list of ints (empty for `n <= 0`). -/
def rangeInt (n : Int) : List Int := (List.range n.toNat).map fun i => (i : Int)

/-- The three fields of a `Sparse_Matrix` object. -/
structure Sparse_Matrix where
  rows : Int
  cols : Int
  matrix : Dict
deriving DecidableEq, Repr

/-- The seed-triple loop of `__init__`: for each `((r, c), v)` check bounds
(`-1 < r < rows` and `-1 < c < cols`), duplication against the dict built so
far, and the value type (`type(v) is (int or float)`, i.e. int only); store
the entry when `v != 0`. -/
def initLoop (rows cols : Int) : Dict → List Entry → Except Err Dict
  | d, [] => .ok d
  | d, t :: ts =>
    if ¬ (-1 < t.1.1 ∧ t.1.1 < rows ∧ -1 < t.1.2 ∧ t.1.2 < cols) then .error .initOutOfBounds
    else if (dictGet? d t.1).isSome then .error .initDupKey
    else if ¬ t.2.isInt then .error .initBadValue
    else if ¬ t.2.eqZero then initLoop rows cols (dictSet d t.1 t.2) ts
    else initLoop rows cols d ts

/-- `Sparse_Matrix.__init__`: dimension asserts, then the seed-triple loop. -/
def Sparse_Matrix.make (rows cols : Int) (ts : List Entry) : Except Err Sparse_Matrix :=
  if ¬ 0 < rows then .error .initBadRows
  else if ¬ 0 < cols then .error .initBadCols
  else (initLoop rows cols [] ts).map fun d => ⟨rows, cols, d⟩

/-- `Sparse_Matrix.size`. -/
def Sparse_Matrix.size (m : Sparse_Matrix) : Int × Int := (m.rows, m.cols)

/-- `Sparse_Matrix.__getitem__`: bounds checks, then the stored value or 0. -/
def Sparse_Matrix.getItem (m : Sparse_Matrix) (rc : Int × Int) : Except Err PyNum :=
  if rc.1 < 0 ∨ m.rows - 1 < rc.1 then .error .getBadRow
  else if rc.2 < 0 ∨ m.cols - 1 < rc.2 then .error .getBadCol
  else .ok (dictGet0 m.matrix rc)

/-- `Sparse_Matrix.__setitem__`: bounds checks, value type check
(`type(value) is (int or float)`, i.e. int only), then pop on a stored zero
assignment, store on a non-zero value, and no change on a zero assignment to
an absent key. -/
def Sparse_Matrix.setItem (m : Sparse_Matrix) (rc : Int × Int) (v : PyNum) :
    Sparse_Matrix × Option Err :=
  if rc.1 < 0 ∨ m.rows - 1 < rc.1 then (m, some .setBadRow)
  else if rc.2 < 0 ∨ m.cols - 1 < rc.2 then (m, some .setBadCol)
  else if ¬ v.isInt then (m, some .setBadValue)
  else if v.eqZero ∧ (dictGet? m.matrix rc).isSome then
    ({ m with matrix := dictPop m.matrix rc }, none)
  else if ¬ v.eqZero then
    ({ m with matrix := dictSet m.matrix rc v }, none)
  else (m, none)

/-- The body of `__delitem__` acting on a dict under given dimensions; also
invoked by `__call__` on `self`. -/
def delItemD (rows cols : Int) (d : Dict) (rc : Int × Int) : Except Err Dict :=
  if rc.1 < 0 ∨ rows - 1 < rc.1 then .error .delBadRow
  else if rc.2 < 0 ∨ cols - 1 < rc.2 then .error .delBadCol
  else .ok (dictPop d rc)

/-- `Sparse_Matrix.__delitem__`. -/
def Sparse_Matrix.delItem (m : Sparse_Matrix) (rc : Int × Int) : Sparse_Matrix × Option Err :=
  match delItemD m.rows m.cols m.matrix rc with
  | .error e => (m, some e)
  | .ok d => ({ m with matrix := d }, none)

/-- A run of `self.__delitem__` calls made by one branch inside `__call__`;
stops at the first raise, returning the dict as mutated so far. -/
def delSeq (rows cols : Int) : Dict → List (Int × Int) → Dict × Option Err
  | d, [] => (d, none)
  | d, rc :: rest =>
    match delItemD rows cols d rc with
    | .error e => (d, some e)
    | .ok d1 => delSeq rows cols d1 rest

/-- The pruning loop of `__call__` over the snapshot of the keys.  For a key
`k1` with `k1[0] >= new_rows` it deletes `(k1[0], c)` for every old column
`c`; for a key with `k1[1] >= new_cols` it deletes `(r, k[1])` for every old
row `r`, where `k` is the STALE variable left over from the copy loop — the
last key of the dict, passed in here as its column `kcol`.  `rows` and
`cols` are the old dimensions throughout. -/
def pruneLoop (rows cols nr nc kcol : Int) : Dict → List (Int × Int) → Dict × Option Err
  | d, [] => (d, none)
  | d, k1 :: ks =>
    match (if nr ≤ k1.1 then delSeq rows cols d ((rangeInt cols).map fun c => (k1.1, c)) else (d, none)) with
    | (d1, some e) => (d1, some e)
    | (d1, none) =>
      match (if nc ≤ k1.2 then delSeq rows cols d1 ((rangeInt rows).map fun r => (r, kcol)) else (d1, none)) with
      | (d2, some e) => (d2, some e)
      | (d2, none) => pruneLoop rows cols nr nc kcol d2 ks

/-- `Sparse_Matrix.__call__` (resize): dimension asserts, the pruning loop
over a snapshot of the keys, then the dimensions are replaced.  `kcol` is
the column of the last dict key, the value the stale variable `k` holds
after the copy loop; its default is never consulted, because the branch
using `kcol` only fires for a key of the dict, which is then nonempty.  When
an inner delete raises, the dims keep their old values and the dict keeps
the deletions made so far, exactly as the Python object would. -/
def Sparse_Matrix.call (m : Sparse_Matrix) (nr nc : Int) : Sparse_Matrix × Option Err :=
  if ¬ 0 < nr then (m, some .callBadRows)
  else if ¬ 0 < nc then (m, some .callBadCols)
  else
    match pruneLoop m.rows m.cols nr nc (((m.matrix.getLast?).map fun p => p.1.2).getD 0)
        m.matrix (m.matrix.map fun p => p.1) with
    | (d, none) => (⟨nr, nc, d⟩, none)
    | (d, some e) => (⟨m.rows, m.cols, d⟩, some e)

/-- The comparison `sorted` applies through `key = lambda x: x[1]` on a dict
item `x = (key_pair, value)`: `x[1]` is the VALUE of the item, not the
column. -/
def entryLe (a b : Entry) : Prop := a.2.le b.2

instance : DecidableRel entryLe := fun a b => by unfold entryLe; infer_instance

instance : IsTotal Entry entryLe :=
  ⟨by intro a b; unfold entryLe; simp only [PyNum.le, decide_eq_true_eq]; exact le_total _ _⟩

instance : IsTrans Entry entryLe :=
  ⟨by intro a b c; unfold entryLe; simp only [PyNum.le, decide_eq_true_eq]; exact le_trans⟩

/-- `Sparse_Matrix.__iter__`: the dict items sorted by `key = lambda x: x[1]`
— the value of the item — yielded as `(row, col, value)` 3-tuples.  Python
sorted is a stable ascending sort by the key; the stable `insertionSort`
produces the identical output. -/
def Sparse_Matrix.iterList (m : Sparse_Matrix) : List (Int × Int × PyNum) :=
  (List.insertionSort entryLe m.matrix).map fun p => (p.1.1, p.1.2, p.2)

/-- `Sparse_Matrix.__neg__`: rebuild through the constructor with every value
negated. -/
def Sparse_Matrix.neg (m : Sparse_Matrix) : Except Err Sparse_Matrix :=
  Sparse_Matrix.make m.rows m.cols (m.matrix.map fun p => (p.1, p.2.neg))

/-- The right operand of an arithmetic or comparison dunder: another matrix,
a Python number, or an object of any other type. -/
inductive Operand where
  | mat (m : Sparse_Matrix)
  | num (x : PyNum)
  | other
deriving DecidableEq, Repr

/-- The list comprehension of the matrix branch of `__add__`: over SELF.S
stored items only, looking the key up in `right` via `right.__getitem__`
(which raises if the key is outside the bounds of `right`). -/
def addTriples : Dict → Sparse_Matrix → Except Err (List Entry)
  | [], _ => .ok []
  | p :: rest, r =>
    match r.getItem p.1 with
    | .error e => .error e
    | .ok rv =>
      match addTriples rest r with
      | .error e => .error e
      | .ok ts => .ok ((p.1, p.2.add rv) :: ts)

/-- `Sparse_Matrix.__add__`: matrix branch asserts equal sizes then rebuilds
from the comprehension over the stored items of self; the scalar branch
tests `type(right) is (int or float)`, i.e. int only, and adds the scalar to
the stored items of self; any other operand raises. -/
def Sparse_Matrix.add (m : Sparse_Matrix) (right : Operand) : Except Err Sparse_Matrix :=
  match right with
  | .mat r =>
    if m.size = r.size then
      match addTriples m.matrix r with
      | .error e => .error e
      | .ok ts => Sparse_Matrix.make m.rows m.cols ts
    else .error .addSizeMismatch
  | .num x =>
    if x.isInt then
      Sparse_Matrix.make m.rows m.cols (m.matrix.map fun p => (p.1, p.2.add x))
    else .error .addBadOperand
  | .other => .error .addBadOperand

/-- `Sparse_Matrix.__sub__`: matrix branch asserts equal sizes then delegates
to `__add__` of the negation; int scalars delegate to `__add__` of the
negated scalar; anything else raises. -/
def Sparse_Matrix.sub (m : Sparse_Matrix) (right : Operand) : Except Err Sparse_Matrix :=
  match right with
  | .mat r =>
    if m.size = r.size then
      match r.neg with
      | .error e => .error e
      | .ok nr => m.add (.mat nr)
    else .error .subSizeMismatch
  | .num x => if x.isInt then m.add (.num x.neg) else .error .subBadOperand
  | .other => .error .subBadOperand

/-- The inner product of `__mul__` at result cell `(i, j)`:
`value = 0` then `value += self.row(i)[t] * right.col(j)[t]` for `t` over the
old columns of self; `self.row(i)[t]` is the stored-or-zero value of self at
`(i, t)` and `right.col(j)[t]` that of right at `(t, j)`. -/
def dotRow (m r : Sparse_Matrix) (i j : Int) : PyNum :=
  (rangeInt m.cols).foldl
    (fun acc t => acc.add ((dictGet0 m.matrix (i, t)).mul (dictGet0 r.matrix (t, j)))) (.int 0)

/-- `Sparse_Matrix.__mul__`: matrix branch asserts `self.cols == right.rows`
then rebuilds from the dense triple list of all inner products, row-major;
the scalar branch (int only, by the same `(int or float)` test) scales the
stored items of self; anything else raises. -/
def Sparse_Matrix.mul (m : Sparse_Matrix) (right : Operand) : Except Err Sparse_Matrix :=
  match right with
  | .mat r =>
    if m.cols = r.rows then
      Sparse_Matrix.make m.rows r.cols
        ((rangeInt m.rows).flatMap fun i => (rangeInt r.cols).map fun j => ((i, j), dotRow m r i j))
    else .error .mulSizeMismatch
  | .num x =>
    if x.isInt then
      Sparse_Matrix.make m.rows m.cols (m.matrix.map fun p => (p.1, p.2.mul x))
    else .error .mulBadOperand
  | .other => .error .mulBadOperand

/-- The loop of `__pow__`: `pow_mat = self` then, once per element of
`range(1, right)`, `pow_mat = pow_mat * self`.  The counter is the number of
remaining iterations. -/
def powLoop (orig : Sparse_Matrix) : Sparse_Matrix → Nat → Except Err Sparse_Matrix
  | acc, 0 => .ok acc
  | acc, k + 1 =>
    match acc.mul (.mat orig) with
    | .error e => .error e
    | .ok a => powLoop orig a k

/-- `Sparse_Matrix.__pow__` on an int exponent: asserts the exponent is
positive, then that the matrix is square, then runs the multiplication loop
`right - 1` times. -/
def Sparse_Matrix.pow (m : Sparse_Matrix) (n : Int) : Except Err Sparse_Matrix :=
  if ¬ 0 < n then .error .powBadExponent
  else if m.rows ≠ m.cols then .error .powNotSquare
  else powLoop m m (n - 1).toNat

/-- The dense row-by-row view of the matrix: `tuple(self.row(i) for i ...)`,
the third component of `details()`. -/
def denseGrid (m : Sparse_Matrix) : List (List PyNum) :=
  (rangeInt m.rows).map fun i => (rangeInt m.cols).map fun j => dictGet0 m.matrix (i, j)

/-- `Sparse_Matrix.__eq__`.  The matrix branch compares sizes and then the
rendered dense row tuples of `details()`; on the values the class can hold
the rendering is injective (ints and floats print differently, e.g. 1 versus
1.0), so the string comparison is modelled as structural equality of the
dense grids.  The scalar branch tests `type(right) is (int or float)`, i.e.
int only: a zero scalar equals an empty dict, a non-zero scalar requires the
count of stored values equal to it to reach `rows * cols`.  Every other
operand, floats included, falls through to False. -/
def Sparse_Matrix.eq (m : Sparse_Matrix) (right : Operand) : Bool :=
  match right with
  | .mat r =>
    if r.size = m.size ∧ denseGrid r = denseGrid m then true else false
  | .num x =>
    if x.isInt then
      if x.eqZero then
        if m.matrix.isEmpty then true else false
      else
        if (m.matrix.countP fun p => p.2.eqNum x : Int) = m.rows * m.cols then true else false
    else false
  | .other => false

/-- The data-model invariants of the spec (positive dimensions, keys in
bounds), with the two representation facts every reachable state enjoys:
unique keys, and int values only — no public path can store a float, since
every value check in the source reads `type(v) is (int or float)`, which
accepts ints alone. -/
def Sparse_Matrix.WellFormed (m : Sparse_Matrix) : Prop :=
  0 < m.rows ∧ 0 < m.cols ∧
  (∀ p ∈ m.matrix, 0 ≤ p.1.1 ∧ p.1.1 < m.rows ∧ 0 ≤ p.1.2 ∧ p.1.2 < m.cols) ∧
  (m.matrix.map fun p => p.1).Nodup ∧
  (∀ p ∈ m.matrix, p.2.isInt = true)

instance (m : Sparse_Matrix) : Decidable m.WellFormed := by
  unfold Sparse_Matrix.WellFormed; infer_instance

/-- Reference definition following the words of claim C7: the n-fold product
computed by n-1 successive multiplications, each by the original operand. -/
def chainPow (m : Sparse_Matrix) : Nat → Except Err Sparse_Matrix
  | 0 => .ok m
  | 1 => .ok m
  | n + 2 =>
    match chainPow m (n + 1) with
    | .error e => .error e
    | .ok a => a.mul (.mat m)

/-! Helper lemmas about the dict primitives and the constructor loop. -/

theorem dictGet?_mem : ∀ (d : Dict) (k : Int × Int) (v : PyNum),
    dictGet? d k = some v → (k, v) ∈ d
  | [], _, _, h => by simp [dictGet?] at h
  | p :: rest, k, v, h => by
    by_cases hk : p.1 = k
    · simp only [dictGet?, if_pos hk, Option.some.injEq] at h
      subst hk h
      exact List.mem_cons_self _ _
    · simp only [dictGet?, if_neg hk] at h
      exact List.mem_cons_of_mem _ (dictGet?_mem rest k v h)

theorem dictSet_fresh : ∀ (d : Dict) (k : Int × Int) (v : PyNum),
    dictGet? d k = none → dictSet d k v = d ++ [(k, v)]
  | [], _, _, _ => rfl
  | p :: rest, k, v, h => by
    by_cases hk : p.1 = k
    · simp [dictGet?, if_pos hk] at h
    · simp only [dictGet?, if_neg hk] at h
      simp only [dictSet, if_neg hk, List.cons_append, List.cons.injEq, true_and]
      exact dictSet_fresh rest k v h

theorem dictGet?_append_fresh : ∀ (d : Dict) (k t : Int × Int) (v : PyNum),
    dictGet? d k = none → k ≠ t → dictGet? (d ++ [(t, v)]) k = none
  | [], k, t, v, _, hne => by
    simp only [List.nil_append]
    unfold dictGet?
    rw [if_neg fun h => hne h.symm]
    rfl
  | p :: rest, k, t, v, h, hne => by
    by_cases hk : p.1 = k
    · simp [dictGet?, if_pos hk] at h
    · simp only [dictGet?, if_neg hk] at h
      simp only [List.cons_append, dictGet?, if_neg hk]
      exact dictGet?_append_fresh rest k t v h hne

theorem PyNum.isInt_add {a b : PyNum} (ha : a.isInt = true) (hb : b.isInt = true) :
    (a.add b).isInt = true := by
  cases a <;> cases b <;> simp_all [PyNum.isInt, PyNum.add]

theorem isInt_dictGet0 {d : Dict} (h : ∀ p ∈ d, p.2.isInt = true) (k : Int × Int) :
    (dictGet0 d k).isInt = true := by
  unfold dictGet0
  cases hg : dictGet? d k with
  | none => rfl
  | some v => exact h (k, v) (dictGet?_mem d k v hg)

theorem getItem_ok (m : Sparse_Matrix) (rc : Int × Int)
    (h1 : 0 ≤ rc.1) (h2 : rc.1 < m.rows) (h3 : 0 ≤ rc.2) (h4 : rc.2 < m.cols) :
    m.getItem rc = .ok (dictGet0 m.matrix rc) := by
  unfold Sparse_Matrix.getItem
  rw [if_neg (by omega), if_neg (by omega)]

theorem addTriples_ok (r : Sparse_Matrix) :
    ∀ d : Dict, (∀ p ∈ d, 0 ≤ p.1.1 ∧ p.1.1 < r.rows ∧ 0 ≤ p.1.2 ∧ p.1.2 < r.cols) →
    addTriples d r = .ok (d.map fun p => (p.1, p.2.add (dictGet0 r.matrix p.1)))
  | [], _ => rfl
  | p :: rest, h => by
    have hp := h p (List.mem_cons_self _ _)
    rw [addTriples, getItem_ok r p.1 hp.1 hp.2.1 hp.2.2.1 hp.2.2.2,
        addTriples_ok r rest fun q hq => h q (List.mem_cons_of_mem _ hq)]
    rfl

theorem initLoop_ok (rows cols : Int) :
    ∀ (ts : List Entry) (d : Dict),
    (∀ t ∈ ts, 0 ≤ t.1.1 ∧ t.1.1 < rows ∧ 0 ≤ t.1.2 ∧ t.1.2 < cols) →
    (∀ t ∈ ts, t.2.isInt = true) →
    (ts.map fun t => t.1).Nodup →
    (∀ t ∈ ts, dictGet? d t.1 = none) →
    initLoop rows cols d ts = .ok (d ++ ts.filter fun t => !t.2.eqZero)
  | [], d, _, _, _, _ => by simp [initLoop]
  | t :: ts, d, hb, hi, hn, hf => by
    have hbt := hb t (List.mem_cons_self _ _)
    have hft := hf t (List.mem_cons_self _ _)
    simp only [List.map_cons, List.nodup_cons, List.mem_map] at hn
    rw [initLoop]
    rw [if_neg (by rw [not_not]; omega)]
    rw [hft]
    simp only [Option.isSome_none, Bool.false_eq_true, if_false,
      hi t (List.mem_cons_self _ _), Bool.not_true, if_false, ite_not]
    by_cases hz : t.2.eqZero = true
    · rw [if_pos hz]
      rw [initLoop_ok rows cols ts d (fun u hu => hb u (List.mem_cons_of_mem _ hu))
        (fun u hu => hi u (List.mem_cons_of_mem _ hu)) hn.2
        (fun u hu => hf u (List.mem_cons_of_mem _ hu))]
      simp [List.filter_cons, hz]
    · rw [if_neg hz]
      rw [dictSet_fresh d t.1 t.2 hft]
      rw [initLoop_ok rows cols ts (d ++ [(t.1, t.2)])
        (fun u hu => hb u (List.mem_cons_of_mem _ hu))
        (fun u hu => hi u (List.mem_cons_of_mem _ hu)) hn.2
        (fun u hu => dictGet?_append_fresh d u.1 t.1 t.2
          (hf u (List.mem_cons_of_mem _ hu))
          (fun he => hn.1 ⟨u, hu, he⟩))]
      simp [List.filter_cons, hz]

theorem powLoop_peel (orig : Sparse_Matrix) :
    ∀ (k : Nat) (acc : Sparse_Matrix),
    powLoop orig acc (k + 1) =
      match powLoop orig acc k with
      | .error e => .error e
      | .ok a => a.mul (.mat orig)
  | 0, acc => by
    cases h : acc.mul (.mat orig) <;> simp [powLoop, h]
  | k + 1, acc => by
    cases h : acc.mul (.mat orig) with
    | error e => simp [powLoop, h]
    | ok a =>
      have := powLoop_peel orig k a
      simp only [powLoop, h]
      exact this

theorem powLoop_eq_chainPow (m : Sparse_Matrix) :
    ∀ k : Nat, powLoop m m k = chainPow m (k + 1)
  | 0 => rfl
  | k + 1 => by
    rw [powLoop_peel, powLoop_eq_chainPow m k]
    cases h : chainPow m (k + 1) <;> simp [chainPow, h]

theorem pruneLoop_noop (rows cols nr nc kcol : Int) :
    ∀ (ks : List (Int × Int)) (d : Dict), (∀ k ∈ ks, k.1 < nr ∧ k.2 < nc) →
    pruneLoop rows cols nr nc kcol d ks = (d, none)
  | [], _, _ => rfl
  | k1 :: ks, d, h => by
    have hk := h k1 (List.mem_cons_self _ _)
    simp only [pruneLoop, if_neg (show ¬ nr ≤ k1.1 by omega), if_neg (show ¬ nc ≤ k1.2 by omega)]
    exact pruneLoop_noop rows cols nr nc kcol ks d fun k hkk => h k (List.mem_cons_of_mem _ hkk)

theorem add_mat_def (m r : Sparse_Matrix) :
    m.add (.mat r) =
      if m.size = r.size then
        match addTriples m.matrix r with
        | Except.error e => Except.error e
        | Except.ok ts => Sparse_Matrix.make m.rows m.cols ts
      else Except.error Err.addSizeMismatch := rfl

theorem add_num_def (m : Sparse_Matrix) (x : PyNum) :
    m.add (.num x) =
      if x.isInt = true then
        Sparse_Matrix.make m.rows m.cols (m.matrix.map fun p => (p.1, p.2.add x))
      else Except.error Err.addBadOperand := rfl

theorem sub_mat_def (m r : Sparse_Matrix) :
    m.sub (.mat r) =
      if m.size = r.size then
        match r.neg with
        | Except.error e => Except.error e
        | Except.ok nr => m.add (.mat nr)
      else Except.error Err.subSizeMismatch := rfl

theorem mul_mat_def (m r : Sparse_Matrix) :
    m.mul (.mat r) =
      if m.cols = r.rows then
        Sparse_Matrix.make m.rows r.cols
          ((rangeInt m.rows).flatMap fun i =>
            (rangeInt r.cols).map fun j => ((i, j), dotRow m r i j))
      else Except.error Err.mulSizeMismatch := rfl

theorem map_key_map (f : Entry → PyNum) : ∀ l : Dict,
    ((l.map fun p => (p.1, f p)).map fun t => t.1) = l.map fun p => p.1
  | [] => rfl
  | p :: l => by simp [map_key_map f l]

theorem make_of_mapped (m : Sparse_Matrix) (f : Entry → PyNum)
    (hm : m.WellFormed) (hf : ∀ p ∈ m.matrix, (f p).isInt = true) :
    Sparse_Matrix.make m.rows m.cols (m.matrix.map fun p => (p.1, f p)) =
      .ok ⟨m.rows, m.cols,
        (m.matrix.map fun p => (p.1, f p)).filter fun p => !p.2.eqZero⟩ := by
  obtain ⟨h1, h2, hb, hnd, _⟩ := hm
  unfold Sparse_Matrix.make
  rw [if_neg (by omega), if_neg (by omega)]
  rw [initLoop_ok m.rows m.cols _ []
    (fun t ht => by
      obtain ⟨p, hp, rfl⟩ := List.mem_map.mp ht
      exact hb p hp)
    (fun t ht => by
      obtain ⟨p, hp, rfl⟩ := List.mem_map.mp ht
      exact hf p hp)
    (by rw [map_key_map]; exact hnd)
    (fun t _ => rfl)]
  simp [Except.map]

/-- C3 counterexample: on the matrix 1x2 with entries (0,0,5) and (0,1,2) the
iterator does NOT enumerate the stored entries in ascending column order —
it yields (0,1,2) before (0,0,5), because `__iter__` sorts the dict items by
`x[1]`, the VALUE of the item, not the column index. -/
theorem C3_iterate_not_column_sorted :
    ¬ (Sparse_Matrix.iterList ⟨1, 2, [((0, 0), .int 5), ((0, 1), .int 2)]⟩).Pairwise
        fun a b => a.2.1 ≤ b.2.1 := by decide

/-- C3 amended: `iterate()` enumerates exactly the stored (non-zero) entries
as (row, col, value) triples, ordered by ascending VALUE (Python `sorted`
with `key = lambda x: x[1]` over the dict items, which is the value). -/
theorem C3_iterate_sorted_by_value (m : Sparse_Matrix) :
    m.iterList.Perm (m.matrix.map fun p => (p.1.1, p.1.2, p.2)) ∧
    m.iterList.Pairwise fun a b => a.2.2.toRat ≤ b.2.2.toRat := by
  constructor
  · unfold Sparse_Matrix.iterList
    exact (List.perm_insertionSort entryLe m.matrix).map _
  · have hs := List.sorted_insertionSort entryLe m.matrix
    unfold Sparse_Matrix.iterList
    refine List.Pairwise.map _ ?_ hs
    intro a b hab
    unfold entryLe at hab
    simpa [PyNum.le] using hab

/-- C4 counterexample: adding the scalar 1 to the all-zero 1x1 matrix yields
the all-zero matrix — the logical cell (0,0) holds 0, not self[0,0] + 1 = 1,
because `__add__` builds the result only from the stored items of self. -/
theorem C4_add_misses_unstored_cells :
    (Sparse_Matrix.add ⟨1, 1, []⟩ (.num (.int 1))).map (fun r => dictGet0 r.matrix (0, 0)) =
      .ok (.int 0) ∧ PyNum.int 0 ≠ PyNum.int 1 :=
  ⟨rfl, by decide⟩

/-- C4 amended: for well-formed same-shape matrices, `add` keeps the shape and
produces stored entries exactly at the stored keys of SELF: each entry
(k, v) of self becomes (k, v + other[k]) — zero sums dropped — and every
cell not stored in self is 0 in the result even where the other operand is
non-zero; likewise `add` with an int scalar s maps each stored entry to
(k, v + s), zero sums dropped, leaving the zero cells of self at zero. -/
theorem C4_add_restricted_to_self_support (m o : Sparse_Matrix) (s : Int)
    (hm : m.WellFormed) (ho : o.WellFormed) (hr : m.rows = o.rows) (hc : m.cols = o.cols) :
    m.add (.mat o) =
      .ok ⟨m.rows, m.cols,
        (m.matrix.map fun p => (p.1, p.2.add (dictGet0 o.matrix p.1))).filter
          fun p => !p.2.eqZero⟩ ∧
    m.add (.num (.int s)) =
      .ok ⟨m.rows, m.cols,
        (m.matrix.map fun p => (p.1, p.2.add (.int s))).filter fun p => !p.2.eqZero⟩ := by
  have hsz : m.size = o.size := by
    unfold Sparse_Matrix.size
    rw [hr, hc]
  constructor
  · rw [add_mat_def, if_pos hsz]
    rw [addTriples_ok o m.matrix (fun p hp => by
      have h3 := hm.2.2.1 p hp
      refine ⟨h3.1, ?_, h3.2.2.1, ?_⟩
      · omega
      · omega)]
    exact make_of_mapped m _ hm fun p hp =>
      PyNum.isInt_add (hm.2.2.2.2 p hp) (isInt_dictGet0 ho.2.2.2.2 p.1)
  · rw [add_num_def, if_pos (show PyNum.isInt (.int s) = true from rfl)]
    exact make_of_mapped m _ hm fun p hp => PyNum.isInt_add (hm.2.2.2.2 p hp) rfl

/-- C4 witness: a concrete instance of the amended addition law.  Note the
matrix-case result is the EMPTY matrix: the sum at (0,0) is 1 + (-1) = 0 and
is dropped, while the entry 2 stored only in the right operand at (0,1)
never enters the result. -/
theorem C4_add_restricted_to_self_support_witness :
    (⟨1, 2, [((0, 0), .int 1)]⟩ : Sparse_Matrix).WellFormed ∧
    (⟨1, 2, [((0, 0), .int (-1)), ((0, 1), .int 2)]⟩ : Sparse_Matrix).WellFormed ∧
    ((⟨1, 2, [((0, 0), .int 1)]⟩ : Sparse_Matrix).add
        (.mat ⟨1, 2, [((0, 0), .int (-1)), ((0, 1), .int 2)]⟩) = .ok ⟨1, 2, []⟩ ∧
      (⟨1, 2, [((0, 0), .int 1)]⟩ : Sparse_Matrix).add (.num (.int 5)) =
        .ok ⟨1, 2, [((0, 0), .int 6)]⟩) :=
  ⟨by decide, by decide,
    C4_add_restricted_to_self_support _ _ 5 (by decide) (by decide) rfl rfl⟩

/-- C1: the claim fails on the code.  Resizing the 2x3 matrix with entries
(0,2,5) and (1,0,7) to 2x2 must drop exactly (0,2) and keep (1,0) with value
7; instead the column-pruning branch deletes by the column of the STALE loop
variable `k` (the last dict key, (1,0)), so the in-range entry (1,0) is
deleted and the out-of-range entry (0,2) survives. -/
theorem C1_resize_deletes_wrong_entries :
    (Sparse_Matrix.make 2 3 [((0, 2), .int 5), ((1, 0), .int 7)]).map
        (fun m => m.call 2 2) =
      .ok (⟨2, 2, [((0, 2), PyNum.int 5)]⟩, none) ∧
    dictGet? [((0, 2), PyNum.int 5)] (1, 0) = none :=
  ⟨rfl, rfl⟩

/-- C2: the claim fails on the code.  After the successful resize of the 2x3
matrix with entries (1,2,4) and (1,0,7) to 2x2, the stored key (1,2) has
column index 2 >= cols = 2: the resize operation does not preserve the
keys-in-bounds invariant. -/
theorem C2_resize_breaks_bounds_invariant :
    (Sparse_Matrix.make 2 3 [((1, 2), .int 4), ((1, 0), .int 7)]).map
        (fun m => m.call 2 2) =
      .ok (⟨2, 2, [((1, 2), PyNum.int 4)]⟩, none) ∧
    ¬ (⟨2, 2, [((1, 2), PyNum.int 4)]⟩ : Sparse_Matrix).WellFormed :=
  ⟨rfl, by decide⟩

/-- C5: the claim fails on the code for floating-point values.  Assigning the
float 1.0 at the in-range index (0,0) of a 1x1 matrix raises a TypeError —
the check `type(value) is not (int or float)` evaluates to
`type(value) is not int` and rejects every float — while the int round trip
works as claimed. -/
theorem C5_float_assignment_rejected :
    Sparse_Matrix.setItem ⟨1, 1, []⟩ (0, 0) (.float 1) = (⟨1, 1, []⟩, some .setBadValue) ∧
    ((Sparse_Matrix.setItem ⟨1, 1, []⟩ (0, 0) (.int 5)).1.getItem (0, 0)) = .ok (.int 5) ∧
    ((Sparse_Matrix.setItem ⟨1, 1, [((0, 0), .int 5)]⟩ (0, 0) (.int 0)).1 = (⟨1, 1, []⟩ : Sparse_Matrix)) :=
  ⟨rfl, rfl, rfl⟩

/-- C6: the claim fails on the code for floating-point scalars.  The 1x1
matrix holding the int 1 compares unequal to the scalar float 1.0 although
its every logical cell numerically equals 1.0 — the scalar branch of
`__eq__` tests `type(right) is (int or float)`, i.e. int only, so a float
operand falls through to False — while the int scalar 1 compares equal. -/
theorem C6_float_scalar_compares_unequal :
    Sparse_Matrix.eq ⟨1, 1, [((0, 0), .int 1)]⟩ (.num (.float 1)) = false ∧
    (dictGet0 [((0, 0), PyNum.int 1)] (0, 0)).eqNum (.float 1) = true ∧
    Sparse_Matrix.eq ⟨1, 1, [((0, 0), .int 1)]⟩ (.num (.int 1)) = true :=
  ⟨rfl, rfl, rfl⟩

/-- C7: `power` computes `self^n` by `n-1` successive multiplications of the
accumulator by the original operand, and in particular `power(m, 2)` is
exactly `multiply(m, m)`. -/
theorem C7_pow_is_chained_multiplication (m : Sparse_Matrix) (n : Int)
    (hsq : m.rows = m.cols) (hn : 1 ≤ n) :
    m.pow n = chainPow m n.toNat ∧ m.pow 2 = m.mul (.mat m) := by
  constructor
  · unfold Sparse_Matrix.pow
    rw [if_neg (by omega), if_neg (not_ne_iff.mpr hsq)]
    rw [powLoop_eq_chainPow]
    congr 1
    omega
  · unfold Sparse_Matrix.pow
    rw [if_neg (by norm_num), if_neg (not_ne_iff.mpr hsq)]
    have h1 : ((2 : Int) - 1).toNat = 1 := rfl
    rw [h1]
    cases h : m.mul (.mat m) <;> simp [powLoop, h]

/-- C7 witness: the chained-power law applied to a concrete square matrix
with exponent 3. -/
theorem C7_pow_is_chained_multiplication_witness :
    (⟨2, 2, [((0, 0), .int 2), ((1, 1), .int 3)]⟩ : Sparse_Matrix).rows =
      (⟨2, 2, [((0, 0), .int 2), ((1, 1), .int 3)]⟩ : Sparse_Matrix).cols ∧
    (1 : Int) ≤ 3 ∧
    ((⟨2, 2, [((0, 0), .int 2), ((1, 1), .int 3)]⟩ : Sparse_Matrix).pow 3 =
        chainPow ⟨2, 2, [((0, 0), .int 2), ((1, 1), .int 3)]⟩ (3 : Int).toNat ∧
      (⟨2, 2, [((0, 0), .int 2), ((1, 1), .int 3)]⟩ : Sparse_Matrix).pow 2 =
        (⟨2, 2, [((0, 0), .int 2), ((1, 1), .int 3)]⟩ : Sparse_Matrix).mul
          (.mat ⟨2, 2, [((0, 0), .int 2), ((1, 1), .int 3)]⟩)) :=
  ⟨rfl, by decide, C7_pow_is_chained_multiplication _ 3 rfl (by decide)⟩

/-- C8: `add` and `sub` between differently-shaped matrices fail with the
size-mismatch assertion, `mul` of two matrices fails with its size-mismatch
assertion whenever `self.cols != right.rows`, and `pow` with a positive int
exponent on a non-square matrix fails with the squareness assertion. -/
theorem C8_shape_mismatch_errors (m o : Sparse_Matrix) (n : Int) :
    (m.size ≠ o.size →
      m.add (.mat o) = .error .addSizeMismatch ∧ m.sub (.mat o) = .error .subSizeMismatch) ∧
    (m.cols ≠ o.rows → m.mul (.mat o) = .error .mulSizeMismatch) ∧
    (0 < n → m.rows ≠ m.cols → m.pow n = .error .powNotSquare) := by
  refine ⟨fun h => ⟨?_, ?_⟩, fun h => ?_, fun hn h => ?_⟩
  · rw [add_mat_def, if_neg h]
  · rw [sub_mat_def, if_neg h]
  · rw [mul_mat_def, if_neg h]
  · unfold Sparse_Matrix.pow
    rw [if_neg (by omega), if_pos h]

/-- C8 witness: the three shape-mismatch failures at concrete shapes 1x2 and
3x1 (and exponent 2 on the non-square 1x2 operand). -/
theorem C8_shape_mismatch_errors_witness :
    Sparse_Matrix.add ⟨1, 2, []⟩ (.mat ⟨3, 1, []⟩) = .error .addSizeMismatch ∧
    Sparse_Matrix.sub ⟨1, 2, []⟩ (.mat ⟨3, 1, []⟩) = .error .subSizeMismatch ∧
    Sparse_Matrix.mul ⟨1, 2, []⟩ (.mat ⟨3, 1, []⟩) = .error .mulSizeMismatch ∧
    Sparse_Matrix.pow ⟨1, 2, []⟩ 2 = .error .powNotSquare := by
  have h := C8_shape_mismatch_errors ⟨1, 2, []⟩ ⟨3, 1, []⟩ 2
  exact ⟨(h.1 (by decide)).1, (h.1 (by decide)).2, h.2.1 (by decide),
    h.2.2 (by decide) (by decide)⟩

/-- C9: the claim fails on the code.  Starting from the constructible state
reached by resizing the 2x3 matrix with entries (1,1,3), (0,2,5), (1,0,7) to
2x2 — a state whose stray key (0,2) the first resize left out of bounds —
the call resize(1,1) first deletes the entry (1,1) and only then raises
(the stale-variable deletion `(r, k[1])` hits column 2, out of range for
`__delitem__`): the failing operation does not leave the state as it was. -/
theorem C9_resize_mutates_before_failing :
    (Sparse_Matrix.make 2 3 [((1, 1), .int 3), ((0, 2), .int 5), ((1, 0), .int 7)]).map
        (fun m0 => ((m0.call 2 2).1, (m0.call 2 2).1.call 1 1)) =
      .ok (⟨2, 2, [((1, 1), PyNum.int 3), ((0, 2), PyNum.int 5)]⟩,
        (⟨2, 2, [((0, 2), PyNum.int 5)]⟩, some Err.delBadCol)) ∧
    [((0, 2), PyNum.int 5)] ≠ [((1, 1), PyNum.int 3), ((0, 2), PyNum.int 5)] :=
  ⟨rfl, by decide⟩

/-- C10: a growing resize — both new dimensions at least the old ones — on a
well-formed matrix replaces the dimensions and leaves the entries mapping
exactly unchanged. -/
theorem C10_growing_resize_preserves_entries (m : Sparse_Matrix) (nr nc : Int)
    (hw : m.WellFormed) (hnr : m.rows ≤ nr) (hnc : m.cols ≤ nc) :
    m.call nr nc = (⟨nr, nc, m.matrix⟩, none) := by
  obtain ⟨h1, h2, hb, _, _⟩ := hw
  unfold Sparse_Matrix.call
  rw [if_neg (by omega), if_neg (by omega)]
  rw [pruneLoop_noop m.rows m.cols nr nc _ (m.matrix.map fun p => p.1) m.matrix
    (fun k hk => by
      obtain ⟨p, hp, rfl⟩ := List.mem_map.mp hk
      have h3 := hb p hp
      omega)]

/-- C10 witness: growing a well-formed 1x1 matrix to 2x3 keeps its single
entry untouched. -/
theorem C10_growing_resize_preserves_entries_witness :
    (⟨1, 1, [((0, 0), .int 5)]⟩ : Sparse_Matrix).WellFormed ∧
    (⟨1, 1, [((0, 0), .int 5)]⟩ : Sparse_Matrix).rows ≤ 2 ∧
    (⟨1, 1, [((0, 0), .int 5)]⟩ : Sparse_Matrix).cols ≤ 3 ∧
    (⟨1, 1, [((0, 0), .int 5)]⟩ : Sparse_Matrix).call 2 3 =
      (⟨2, 3, [((0, 0), PyNum.int 5)]⟩, none) :=
  ⟨by decide, by decide, by decide,
    C10_growing_resize_preserves_entries _ 2 3 (by decide) (by decide) (by decide)⟩
